import Mathlib

/-!
Verification of the atlas-markdown crawl engine.

This file gives a shallow embedding in Lean 4 of the parts of the program
that the specification's testable properties are about:

* the crawl frontier (state store) from `src/utils/state_manager.py`
  (SQLite rows become a list of `PageRecord`, SQL statements become list
  transformations);
* the circuit breaker from `atlas_markdown/utils/health_monitor.py`
  (wall-clock time becomes an explicit rational parameter);
* the backoff computation from `atlas_markdown/utils/rate_limiter.py`
  (floats become rationals, `random.random()` becomes an explicit
  parameter in `[0, 1)`);
* the redirect following and relative-path computation from
  `atlas_markdown/parsers/link_resolver.py` (strings are manipulated as
  character lists; the unbounded `while` loop becomes a fuel-indexed
  recursion returning `Option`, with a proof that the chosen fuel always
  suffices);
* the per-URL fetch orchestration from `scraper.py`
  (`scrape_single_page`), with the browser/extraction collaborator
  abstracted into an explicit `FetchOutcome` and only the
  frontier/circuit-breaker/counter effects tracked.
-/

namespace AtlasMarkdown

/-- Status of a scraped page, from `PageStatus` in `state_manager.py`. -/
inductive PageStatus where
  | pending
  | inProgress
  | completed
  | failed
  | skipped
deriving DecidableEq, Repr

/-- One row of the `pages` table created in `StateManager.initialize`.
Timestamps are modelled as natural numbers supplied by the caller. -/
structure PageRecord where
  url : String
  status : PageStatus
  title : Option String
  content_hash : Option String
  file_path : Option String
  error_message : Option String
  retry_count : Nat
  crawl_depth : Nat
  parent_url : Option String
  created_at : Nat
  updated_at : Nat
  completed_at : Option Nat
deriving DecidableEq, Repr

/-- Python truthiness of an optional string: `if file_path:` is taken
only for a present, non-empty string. -/
def optTruthy (o : Option String) : Bool :=
  match o with
  | some s => s ≠ ""
  | none => false

/-- Look up the row with the given URL (the `url` column is the primary
key; SQLite `WHERE url = ?` hits the first matching row). -/
def findRecord (db : List PageRecord) (url : String) : Option PageRecord :=
  db.find? (fun r => r.url == url)

/-- Number of rows carrying the given URL. -/
def countUrl (db : List PageRecord) (url : String) : Nat :=
  (db.filter (fun r => r.url == url)).length

/-- The fresh row inserted by `StateManager.add_page`: status `pending`,
`retry_count` and all nullable columns at their SQL defaults. -/
def newPageRecord (url : String) (title : Option String) (crawl_depth : Nat)
    (parent_url : Option String) (now : Nat) : PageRecord :=
  { url := url, status := PageStatus.pending, title := title,
    content_hash := none, file_path := none, error_message := none,
    retry_count := 0, crawl_depth := crawl_depth, parent_url := parent_url,
    created_at := now, updated_at := now, completed_at := none }

/-- `StateManager.add_page`: `INSERT OR IGNORE INTO pages (url, title,
status, crawl_depth, parent_url) VALUES (...)` — a no-op when a row with
that URL already exists. -/
def add_page (db : List PageRecord) (url : String) (title : Option String)
    (crawl_depth : Nat) (parent_url : Option String) (now : Nat) : List PageRecord :=
  if db.any (fun r => r.url == url) then db
  else db ++ [newPageRecord url title crawl_depth parent_url now]

/-- The column updates `StateManager.update_page_status` applies to the
row matching the URL: the status and `updated_at` are always written;
`file_path`, `content_hash` and `error_message` only when passed truthy;
`completed_at` is stamped on `COMPLETED`; `retry_count` is incremented on
`FAILED`. -/
def applyStatusUpdate (status : PageStatus) (file_path content_hash error_message : Option String)
    (now : Nat) (r : PageRecord) : PageRecord :=
  { r with
    status := status,
    updated_at := now,
    file_path := if optTruthy file_path then file_path else r.file_path,
    content_hash := if optTruthy content_hash then content_hash else r.content_hash,
    error_message := if optTruthy error_message then error_message else r.error_message,
    completed_at := if status = PageStatus.completed then some now else r.completed_at,
    retry_count := if status = PageStatus.failed then r.retry_count + 1 else r.retry_count }

/-- `StateManager.update_page_status`: `UPDATE pages SET ... WHERE url = ?`.
The update is unconditional on the row's current status. -/
def update_page_status (db : List PageRecord) (url : String) (status : PageStatus)
    (file_path content_hash error_message : Option String) (now : Nat) : List PageRecord :=
  db.map (fun r => if r.url == url then
    applyStatusUpdate status file_path content_hash error_message now r else r)

/-- `StateManager.reset_in_progress`: `UPDATE pages SET status = 'pending'
WHERE status = 'in_progress'` (no other column is touched). -/
def reset_in_progress (db : List PageRecord) : List PageRecord :=
  db.map (fun r => if r.status = PageStatus.inProgress then
    { r with status := PageStatus.pending } else r)

/-- `StateManager.reset_for_retry`: return a failed page to pending and
clear its error message, preserving `retry_count`. -/
def reset_for_retry (db : List PageRecord) (url : String) : List PageRecord :=
  db.map (fun r => if r.url == url then
    { r with status := PageStatus.pending, error_message := none } else r)

/-- Insert into a list sorted by the boolean relation, keeping existing
order among incomparable elements (models a deterministic SQL
ORDER BY). -/
def insertLe {α : Type} (le : α → α → Bool) (x : α) : List α → List α
  | [] => [x]
  | y :: ys => if le x y then x :: y :: ys else y :: insertLe le x ys

/-- Insertion sort by a boolean relation. -/
def sortByLe {α : Type} (le : α → α → Bool) : List α → List α
  | [] => []
  | x :: xs => insertLe le x (sortByLe le xs)

/-- The `ORDER BY crawl_depth ASC, retry_count ASC, created_at ASC` key
of `StateManager.get_pending_pages`. -/
def pendingOrder (a b : PageRecord) : Bool :=
  decide (a.crawl_depth < b.crawl_depth) ||
    (a.crawl_depth == b.crawl_depth &&
      (decide (a.retry_count < b.retry_count) ||
        (a.retry_count == b.retry_count && decide (a.created_at ≤ b.created_at))))

/-- `StateManager.get_pending_pages`: select the rows whose status is
`pending` or `failed` (optionally depth-bounded), ordered by depth, then
retry count, then discovery time; `if limit:` means a limit of `0` or
`None` is no limit at all. -/
def get_pending_pages (db : List PageRecord) (limit max_depth : Option Nat) :
    List PageRecord :=
  let filtered := db.filter (fun r =>
    (r.status == PageStatus.pending || r.status == PageStatus.failed) &&
      (match max_depth with
       | some d => decide (r.crawl_depth ≤ d)
       | none => true))
  let sorted := sortByLe pendingOrder filtered
  match limit with
  | some (n + 1) => sorted.take (n + 1)
  | _ => sorted

/-- The three circuit-breaker states of `health_monitor.CircuitBreaker`
(the Python strings are "closed", "open" and "half-open"; the second is
named `opened` here because of Lean's keyword). -/
inductive CBState where
  | closed
  | opened
  | halfOpen
deriving DecidableEq, Repr

/-- `health_monitor.CircuitBreaker`'s mutable fields. Wall-clock time
(`datetime.now()`) is modelled as a rational number of seconds passed in
explicitly by each time-reading method. -/
structure CircuitBreaker where
  failure_threshold : Nat
  recovery_timeout : ℚ
  failure_count : Nat
  last_failure_time : Option ℚ
  state : CBState
deriving DecidableEq, Repr

/-- `CircuitBreaker.__init__`: closed, zero failures, no failure time. -/
def CircuitBreaker.init (failure_threshold : Nat) (recovery_timeout : ℚ) : CircuitBreaker :=
  { failure_threshold := failure_threshold, recovery_timeout := recovery_timeout,
    failure_count := 0, last_failure_time := none, state := CBState.closed }

/-- `CircuitBreaker.record_success`: reset the failure count and force
the closed state. -/
def record_success (cb : CircuitBreaker) : CircuitBreaker :=
  { cb with failure_count := 0, state := CBState.closed }

/-- `CircuitBreaker.record_failure`: increment the count, stamp the
failure time, and open the breaker once the count reaches the
threshold (otherwise the state is left as it was). -/
def record_failure (cb : CircuitBreaker) (now : ℚ) : CircuitBreaker :=
  { cb with
    failure_count := cb.failure_count + 1,
    last_failure_time := some now,
    state := if cb.failure_threshold ≤ cb.failure_count + 1 then CBState.opened else cb.state }

/-- `CircuitBreaker.can_attempt`, which both answers and may mutate the
breaker (open to half-open once the recovery timeout has strictly
elapsed since the last failure); the returned pair is (answer, breaker
afterwards). Closed answers true; open answers true (becoming half-open)
only after the timeout; the final `return self.state == "half-open"`
makes an already-half-open breaker answer true, unchanged. -/
def can_attempt (cb : CircuitBreaker) (now : ℚ) : Bool × CircuitBreaker :=
  match cb.state with
  | CBState.closed => (true, cb)
  | CBState.opened =>
    match cb.last_failure_time with
    | some t =>
      if cb.recovery_timeout < now - t then (true, { cb with state := CBState.halfOpen })
      else (false, cb)
    | none => (false, cb)
  | CBState.halfOpen => (true, cb)

/-- `CircuitBreaker.reset`: back to closed with no recorded failures. -/
def CircuitBreaker.reset (cb : CircuitBreaker) : CircuitBreaker :=
  { cb with failure_count := 0, state := CBState.closed, last_failure_time := none }

/-- `rate_limiter.RetryConfig` (floats modelled as rationals). -/
structure RetryConfig where
  max_attempts : Nat
  initial_delay : ℚ
  max_delay : ℚ
  exponential_base : ℚ
  jitter : Bool
deriving DecidableEq, Repr

/-- `rate_limiter.calculate_backoff`: the capped exponential delay
`min(initial_delay * base^(attempt-1), max_delay)`, scaled by
`0.5 + random.random()` when jitter is on; the random draw is the
explicit parameter `rand` ranging over `[0, 1)`. -/
def calculate_backoff (attempt : Nat) (config : RetryConfig) (rand : ℚ) : ℚ :=
  let delay := min (config.initial_delay * config.exponential_base ^ (attempt - 1))
    config.max_delay
  if config.jitter then delay * (1/2 + rand) else delay

/-- The `ORDER BY retry_count ASC, updated_at ASC` key of
`StateManager.get_failed_pages_for_retry`. -/
def retryOrder (a b : PageRecord) : Bool :=
  decide (a.retry_count < b.retry_count) ||
    (a.retry_count == b.retry_count && decide (a.updated_at ≤ b.updated_at))

/-- `StateManager.get_failed_pages_for_retry`: failed rows with
`retry_count < max_retries`, ordered by retry count then last update. -/
def get_failed_pages_for_retry (db : List PageRecord) (max_retries : Nat) :
    List PageRecord :=
  sortByLe retryOrder
    (db.filter (fun r => r.status == PageStatus.failed && decide (r.retry_count < max_retries)))

/-- Python `url.rstrip("/")`: drop every trailing slash. -/
def rstripSlash (s : String) : String :=
  String.mk ((s.toList.reverse.dropWhile (fun c => c == '/')).reverse)

/-- Python `url.endswith("/")`. -/
def endsWithSlash (s : String) : Bool :=
  match s.toList.getLast? with
  | some c => c == '/'
  | none => false

/-- Lookup in the `RedirectHandler.redirects` dict, modelled as an
association list with distinct keys. -/
def dictLookup (m : List (String × String)) (k : String) : Option String :=
  (m.find? (fun p => p.1 == k)).map (fun p => p.2)

/-- One probe of `LinkResolver._follow_redirects`'s loop body: look the
current URL up as is, then with a trailing slash appended, then (when it
ends in a slash) with trailing slashes stripped. -/
def lookupNext (m : List (String × String)) (current : String) : Option String :=
  match dictLookup m current with
  | some nxt => some nxt
  | none =>
    match dictLookup m (current ++ "/") with
    | some nxt => some nxt
    | none =>
      if endsWithSlash current then dictLookup m (rstripSlash current) else none

/-- The `while True` loop of `LinkResolver._follow_redirects`, indexed by
fuel: stop (returning the current URL) when no redirect matches or when
the current URL was already seen (a cycle); otherwise record it as seen
and move to the normalized target. `none` means the fuel ran out. -/
def follow_redirects_aux (m : List (String × String)) :
    Nat → List String → String → Option String
  | 0, _, _ => none
  | fuel + 1, seen, current =>
    match lookupNext m current with
    | none => some current
    | some nxt =>
      if current ∈ seen then some current
      else follow_redirects_aux m fuel (current :: seen) (rstripSlash nxt)

/-- `LinkResolver._follow_redirects` with fuel `m.length + 2`, which the
termination theorem below shows is always enough. -/
def follow_redirects (m : List (String × String)) (url : String) : Option String :=
  follow_redirects_aux m (m.length + 2) [] url

/-- Remove every occurrence of the substring ".md", as Python
`path.replace(".md", "")` does (left-to-right, non-overlapping). -/
def stripMd : List Char → List Char
  | [] => []
  | '.' :: 'm' :: 'd' :: rest => stripMd rest
  | c :: rest => c :: stripMd rest

/-- Split a character list on slashes. -/
def splitSlash : List Char → List (List Char)
  | [] => [[]]
  | '/' :: rest => [] :: splitSlash rest
  | c :: rest =>
    match splitSlash rest with
    | [] => [[c]]
    | g :: gs => (c :: g) :: gs

/-- The `parts` of `pathlib.Path(p.replace(".md", ""))` for a relative
POSIX path: split on slashes and drop empty segments. -/
def pathParts (s : String) : List (List Char) :=
  (splitSlash (stripMd s.toList)).filter (fun g => !g.isEmpty)

/-- Join path segments with slashes. -/
def joinSlash (groups : List (List Char)) : String :=
  String.mk (List.intercalate ['/'] groups)

/-- Length of the longest common prefix of two segment lists — the
`common_parts` loop (zip, compare, break on first mismatch) of
`LinkResolver._calculate_relative_path`. -/
def commonPrefixLen : List (List Char) → List (List Char) → Nat
  | a :: as_, b :: bs => if a = b then commonPrefixLen as_ bs + 1 else 0
  | _, _ => 0

/-- `LinkResolver._calculate_relative_path`: strip ".md", take the source
file's directory; same directory yields just the target's name;
`to.relative_to(from_dir)` succeeds when the source directory is a
prefix of the target path (yielding the remaining segments, or "." when
nothing remains); otherwise trim the shared leading segments and prepend
one ".." per remaining source-directory segment. -/
def calculate_relative_path (from_path to_path : String) : String :=
  let fromParts := pathParts from_path
  let toParts := pathParts to_path
  let fromDir := fromParts.dropLast
  if fromDir = toParts.dropLast then
    String.mk (toParts.getLast?.getD [])
  else if toParts.take fromDir.length = fromDir then
    let rest := toParts.drop fromDir.length
    if rest = [] then "." else joinSlash rest
  else
    let common := commonPrefixLen fromDir toParts
    joinSlash (List.replicate (fromDir.length - common) ['.', '.'] ++ toParts.drop common)

/-- Outcome of the rate-limited, retry-wrapped fetch-and-extract call in
`scrape_single_page` (the browser and parser collaborators are opaque to
the orchestration logic): a rendered page saved to a path, a timeout, or
any other exception with its message. -/
inductive FetchOutcome where
  | success (file_path : String)
  | timeout
  | failure (msg : String)
deriving DecidableEq, Repr

/-- The in-process orchestrator state that `scrape_single_page` reads and
writes: the frontier rows, the shared circuit breaker, and the
consecutive-failure counter `failed_pages_count`. -/
structure ScrapeState where
  db : List PageRecord
  cb : CircuitBreaker
  failedCount : Nat
deriving DecidableEq, Repr

/-- How a `scrape_single_page` call ends: a normal return, or the
`RuntimeError` raised at the consecutive-failure ceiling. -/
inductive ScrapeResult where
  | ok
  | fatal (msg : String)
deriving DecidableEq, Repr

/-- `DocumentationScraper.scrape_single_page`, tracking its effects on
the frontier, the circuit breaker and the consecutive-failure counter
(file writing, link-resolver registration and link discovery are
collaborator effects outside this state). If the breaker disallows the
attempt the page is marked failed with "Circuit breaker open" and the
call returns. Otherwise the page is claimed `in_progress` and the fetch
outcome is dispatched: success completes the page, records a breaker
success and zeroes the counter; a timeout or any other exception marks
the page failed with its message, records a breaker failure and
increments the counter — but only the non-timeout branch checks the
counter against `max_consecutive_failures` and raises. `now` is the
row-timestamp clock and `t` the breaker's seconds clock, both denoting
the same instant. -/
def scrape_single_page (maxConsecutive : Nat) (url : String) (outcome : FetchOutcome)
    (now : Nat) (t : ℚ) (s : ScrapeState) : ScrapeState × ScrapeResult :=
  if (can_attempt s.cb t).1 = false then
    ({ s with
        db := update_page_status s.db url PageStatus.failed none none
          (some "Circuit breaker open") now,
        cb := (can_attempt s.cb t).2 }, ScrapeResult.ok)
  else
    match outcome with
    | FetchOutcome.success fp =>
      ({ db := update_page_status
           (update_page_status s.db url PageStatus.inProgress none none none now)
           url PageStatus.completed (some fp) none none now,
         cb := record_success (can_attempt s.cb t).2,
         failedCount := 0 }, ScrapeResult.ok)
    | FetchOutcome.timeout =>
      ({ db := update_page_status
           (update_page_status s.db url PageStatus.inProgress none none none now)
           url PageStatus.failed none none (some "Timeout while scraping page") now,
         cb := record_failure (can_attempt s.cb t).2 t,
         failedCount := s.failedCount + 1 }, ScrapeResult.ok)
    | FetchOutcome.failure msg =>
      if maxConsecutive ≤ s.failedCount + 1 then
        ({ db := update_page_status
             (update_page_status s.db url PageStatus.inProgress none none none now)
             url PageStatus.failed none none (some msg) now,
           cb := record_failure (can_attempt s.cb t).2 t,
           failedCount := s.failedCount + 1 }, ScrapeResult.fatal "Too many consecutive page failures")
      else
        ({ db := update_page_status
             (update_page_status s.db url PageStatus.inProgress none none none now)
             url PageStatus.failed none none (some msg) now,
           cb := record_failure (can_attempt s.cb t).2 t,
           failedCount := s.failedCount + 1 }, ScrapeResult.ok)

/-- A frontier row with the given URL, status and discovery time and all
other columns at their defaults, used to build concrete frontiers. -/
def sampleRec (url : String) (st : PageStatus) (created : Nat) : PageRecord :=
  { url := url, status := st, title := none, content_hash := none, file_path := none,
    error_message := none, retry_count := 0, crawl_depth := 0, parent_url := none,
    created_at := created, updated_at := created, completed_at := none }

/-- A one-row frontier whose page is already completed. -/
def c1db : List PageRecord := [sampleRec "u" PageStatus.completed 0]

/-- A frontier holding one page in each of the four statuses the
resumability property mixes. -/
def c2db : List PageRecord :=
  [sampleRec "cu" PageStatus.completed 0, sampleRec "fu" PageStatus.failed 1,
   sampleRec "iu" PageStatus.inProgress 2, sampleRec "pu" PageStatus.pending 3]

/-- An orchestrator state one failure short of the configured
consecutive-failure ceiling of 20, breaker closed. -/
def c3state : ScrapeState :=
  { db := [sampleRec "u" PageStatus.pending 0],
    cb := CircuitBreaker.init 10 300, failedCount := 19 }

/-- An orchestrator state whose breaker is freshly closed. -/
def c3okState : ScrapeState :=
  { db := [sampleRec "v" PageStatus.pending 0],
    cb := CircuitBreaker.init 10 300, failedCount := 0 }

/-- An orchestrator state whose breaker is open with the recovery
timeout not yet elapsed at second 1. -/
def c10state : ScrapeState :=
  { db := [sampleRec "w" PageStatus.pending 0],
    cb := { failure_threshold := 10, recovery_timeout := 300, failure_count := 10,
            last_failure_time := some 0, state := CBState.opened },
    failedCount := 0 }

/-- The two-entry cyclic redirect map A to B to A. -/
def cyclicRedirects : List (String × String) := [("A", "B"), ("B", "A")]

/-- A breaker sitting in the half-open state. -/
def halfOpenBreaker : CircuitBreaker :=
  { failure_threshold := 1, recovery_timeout := 1, failure_count := 1,
    last_failure_time := some 0, state := CBState.halfOpen }

/-- Every element of an insertion step was either inserted or already
present. -/
theorem mem_insertLe {α : Type} (le : α → α → Bool) (x a : α) (l : List α) :
    a ∈ insertLe le x l ↔ a = x ∨ a ∈ l := by
  induction l with
  | nil => simp [insertLe]
  | cons y ys ih =>
    simp only [insertLe]
    by_cases h : le x y = true
    · rw [if_pos h]
      simp [List.mem_cons]
    · rw [if_neg h]
      simp only [List.mem_cons, ih]
      tauto

/-- Sorting preserves the elements. -/
theorem mem_sortByLe {α : Type} (le : α → α → Bool) (a : α) (l : List α) :
    a ∈ sortByLe le l ↔ a ∈ l := by
  induction l with
  | nil => simp [sortByLe]
  | cons x xs ih => simp [sortByLe, mem_insertLe, ih]

/-- The status update leaves the primary key alone. -/
theorem applyStatusUpdate_url (st : PageStatus) (fp ch em : Option String) (now : Nat)
    (r : PageRecord) : (applyStatusUpdate st fp ch em now r).url = r.url := rfl

/-- Effect of `update_page_status` on the looked-up row: whatever row the
URL had before, the same row is found afterwards with the column updates
applied — unconditionally, whatever the previous status was. -/
theorem findRecord_update_page_status (db : List PageRecord) (url : String) (st : PageStatus)
    (fp ch em : Option String) (now : Nat) :
    findRecord (update_page_status db url st fp ch em now) url =
      (findRecord db url).map (applyStatusUpdate st fp ch em now) := by
  induction db with
  | nil => rfl
  | cons r rest ih =>
    unfold update_page_status findRecord at ih ⊢
    rw [List.map_cons]
    by_cases h : (r.url == url) = true
    · rw [if_pos h]
      have hu : ((applyStatusUpdate st fp ch em now r).url == url) = true := h
      rw [List.find?_cons, List.find?_cons, hu, h]
      rfl
    · rw [if_neg h]
      have hb : (r.url == url) = false := by simpa using h
      rw [List.find?_cons, List.find?_cons, hb]
      exact ih

/-- A successful dict lookup returns one of the dict's values. -/
theorem dictLookup_mem_values (m : List (String × String)) (k v : String)
    (h : dictLookup m k = some v) : v ∈ m.map Prod.snd := by
  unfold dictLookup at h
  cases hf : m.find? (fun p => p.1 == k) with
  | none => rw [hf] at h; cases h
  | some p =>
    rw [hf] at h
    obtain rfl : p.2 = v := Option.some.inj h
    exact List.mem_map.mpr ⟨p, List.mem_of_find?_eq_some hf, rfl⟩

/-- Whatever variant of the current URL matched, the next URL produced by
a redirect step is a value of the redirect map. -/
theorem lookupNext_mem_values (m : List (String × String)) (current nxt : String)
    (h : lookupNext m current = some nxt) : nxt ∈ m.map Prod.snd := by
  unfold lookupNext at h
  cases h1 : dictLookup m current with
  | some v =>
    rw [h1] at h
    obtain rfl : v = nxt := Option.some.inj h
    exact dictLookup_mem_values m current v h1
  | none =>
    rw [h1] at h
    cases h2 : dictLookup m (current ++ "/") with
    | some v =>
      rw [h2] at h
      obtain rfl : v = nxt := Option.some.inj h
      exact dictLookup_mem_values m _ v h2
    | none =>
      rw [h2] at h
      by_cases h3 : endsWithSlash current = true
      · rw [if_pos h3] at h
        exact dictLookup_mem_values m _ nxt h
      · rw [if_neg h3] at h
        cases h

/-- The loop of `_follow_redirects` answers within the given fuel: each
iteration either stops, or marks a fresh URL as seen, and every URL it
can move to is one of the finitely many normalized redirect values. -/
theorem follow_redirects_aux_isSome (m : List (String × String)) :
    ∀ (fuel : Nat) (seen : List String) (current : String),
      ((m.map (fun p => rstripSlash p.2)).toFinset \ seen.toFinset).card + 1 < fuel ∨
        (current ∈ m.map (fun p => rstripSlash p.2) ∧
          ((m.map (fun p => rstripSlash p.2)).toFinset \ seen.toFinset).card < fuel) →
      (follow_redirects_aux m fuel seen current).isSome = true := by
  intro fuel
  induction fuel with
  | zero =>
    intro seen current hyp
    rcases hyp with hcard | ⟨_, hcard⟩ <;> exact absurd hcard (Nat.not_lt_zero _)
  | succ fuel ih =>
    intro seen current hyp
    unfold follow_redirects_aux
    cases hl : lookupNext m current with
    | none => rfl
    | some nxt =>
      show (if current ∈ seen then some current
        else follow_redirects_aux m fuel (current :: seen) (rstripSlash nxt)).isSome = true
      by_cases hseen : current ∈ seen
      · rw [if_pos hseen]
        rfl
      · rw [if_neg hseen]
        apply ih
        right
        constructor
        · obtain ⟨p, hp, rfl⟩ := List.mem_map.mp (lookupNext_mem_values m current nxt hl)
          exact List.mem_map.mpr ⟨p, hp, rfl⟩
        · have hsub : (m.map (fun p => rstripSlash p.2)).toFinset \ (current :: seen).toFinset ⊆
              (m.map (fun p => rstripSlash p.2)).toFinset \ seen.toFinset := by
            rw [List.toFinset_cons, Finset.sdiff_insert]
            exact Finset.erase_subset _ _
          rcases hyp with hcard | ⟨hcur, hcard⟩
          · exact Nat.lt_of_le_of_lt (Finset.card_le_card hsub) (by omega)
          · have hmem : current ∈ (m.map (fun p => rstripSlash p.2)).toFinset \ seen.toFinset :=
              Finset.mem_sdiff.mpr ⟨List.mem_toFinset.mpr hcur,
                fun hc => hseen (List.mem_toFinset.mp hc)⟩
            have hlt : ((m.map (fun p => rstripSlash p.2)).toFinset \
                (current :: seen).toFinset).card <
                ((m.map (fun p => rstripSlash p.2)).toFinset \ seen.toFinset).card := by
              rw [List.toFinset_cons, Finset.sdiff_insert]
              exact Finset.card_erase_lt_of_mem hmem
            omega

/-- `_follow_redirects` with its chosen fuel always answers. -/
theorem follow_redirects_isSome (m : List (String × String)) (url : String) :
    (follow_redirects m url).isSome = true := by
  apply follow_redirects_aux_isSome
  left
  rw [List.toFinset_nil, Finset.sdiff_empty]
  have h1 : (m.map (fun p => rstripSlash p.2)).toFinset.card ≤
      (m.map (fun p => rstripSlash p.2)).length := List.toFinset_card_le _
  rw [List.length_map] at h1
  omega

/-- Folding successive failures adds to the failure count and leaves the
configured threshold and timeout unchanged. -/
theorem foldl_record_failure_fields (ts : List ℚ) (cb : CircuitBreaker) :
    (ts.foldl record_failure cb).failure_count = cb.failure_count + ts.length ∧
      (ts.foldl record_failure cb).failure_threshold = cb.failure_threshold ∧
      (ts.foldl record_failure cb).recovery_timeout = cb.recovery_timeout := by
  induction ts generalizing cb with
  | nil => simp
  | cons t ts ih =>
    obtain ⟨h1, h2, h3⟩ := ih (record_failure cb t)
    refine ⟨?_, ?_, ?_⟩
    · rw [List.foldl_cons, h1]
      simp only [record_failure, List.length_cons]
      omega
    · rw [List.foldl_cons, h2]
      rfl
    · rw [List.foldl_cons, h3]
      rfl

/-- A half-open breaker answers true and is left untouched by
`can_attempt`. -/
theorem can_attempt_of_halfOpen (cb : CircuitBreaker) (now : ℚ)
    (h : cb.state = CBState.halfOpen) : can_attempt cb now = (true, cb) := by
  unfold can_attempt
  rw [h]

/-- An open breaker whose recovery timeout has strictly elapsed answers
true and moves to half-open. -/
theorem can_attempt_of_opened_elapsed (cb : CircuitBreaker) (now tl : ℚ)
    (hst : cb.state = CBState.opened) (hlast : cb.last_failure_time = some tl)
    (helapsed : cb.recovery_timeout < now - tl) :
    can_attempt cb now = (true, { cb with state := CBState.halfOpen }) := by
  unfold can_attempt
  rw [hst, hlast]
  simp [helapsed]

/-- An open breaker whose recovery timeout has not strictly elapsed
answers false and is left untouched. -/
theorem can_attempt_of_opened_not_elapsed (cb : CircuitBreaker) (now tl : ℚ)
    (hst : cb.state = CBState.opened) (hlast : cb.last_failure_time = some tl)
    (hne : ¬ cb.recovery_timeout < now - tl) :
    can_attempt cb now = (false, cb) := by
  unfold can_attempt
  rw [hst, hlast]
  simp [hne]

/-- C1: the claim asserts that a status transition to `in_progress` on a
URL already `in_progress` or terminal is rejected and does not overwrite
the existing status. The code has no such guard: `update_page_status`
runs `UPDATE pages SET status = ... WHERE url = ?` unconditionally. At
this concrete input a URL whose status is `completed` (terminal) is
claimed, and its status is overwritten to `in_progress` instead of being
rejected. -/
theorem C1_counterexample :
    ((findRecord (update_page_status c1db "u" PageStatus.inProgress none none none 7) "u").map
        (fun r => r.status) = some PageStatus.inProgress) ∧
      (findRecord c1db "u").map (fun r => r.status) = some PageStatus.completed := by
  decide

/-- C1 (amended): a claim (status transition to `in_progress`) succeeds
unconditionally: whatever record a URL currently has — pending,
in_progress, or terminal — `update_page_status` overwrites its status to
`in_progress`; nothing is rejected, and under concurrent claims each
write succeeds (last write wins). -/
theorem C1_claim_overwrites (db : List PageRecord) (url : String) (now : Nat) :
    (findRecord (update_page_status db url PageStatus.inProgress none none none now) url).map
        (fun r => r.status) =
      (findRecord db url).map (fun _ => PageStatus.inProgress) := by
  rw [findRecord_update_page_status]
  cases findRecord db url with
  | none => rfl
  | some r => rfl

/-- C4: the claim asserts that after `can_attempt` has returned true
once in a half-open window, further calls before the next
`record_success`/`record_failure` do not also return true. On the code,
a breaker opened by one failure (threshold 1, timeout 1 second, failure
at second 0) probed at second 2 answers true and becomes half-open, and
a second probe immediately afterwards answers true again: the probe is
not consumed. -/
theorem C4_counterexample :
    ((can_attempt (record_failure (CircuitBreaker.init 1 1) 0) 2).1 = true) ∧
      ((can_attempt (can_attempt (record_failure (CircuitBreaker.init 1 1) 0) 2).2 2).1 = true) := by
  have hopen : (record_failure (CircuitBreaker.init 1 1) 0).state = CBState.opened := by
    simp [record_failure, CircuitBreaker.init]
  have hlast : (record_failure (CircuitBreaker.init 1 1) 0).last_failure_time = some 0 := rfl
  have helap : (record_failure (CircuitBreaker.init 1 1) 0).recovery_timeout < 2 - 0 := by
    norm_num [record_failure, CircuitBreaker.init]
  have h1 := can_attempt_of_opened_elapsed _ 2 0 hopen hlast helap
  have hhalf : ((can_attempt (record_failure (CircuitBreaker.init 1 1) 0) 2).2).state =
      CBState.halfOpen := by
    rw [h1]
  have h2 := can_attempt_of_halfOpen _ 2 hhalf
  exact ⟨by rw [h1], by rw [h2]⟩

/-- C4 (amended): while the breaker is half-open, every `can_attempt`
call answers true and leaves the breaker unchanged until the next
`record_success`/`record_failure`; the single probe is not consumed, so
any number of callers may be allowed through one half-open window. -/
theorem C4_half_open_probe_not_consumed (cb : CircuitBreaker) (t1 t2 : ℚ)
    (h : cb.state = CBState.halfOpen) :
    can_attempt cb t1 = (true, cb) ∧ (can_attempt (can_attempt cb t1).2 t2).1 = true := by
  have h1 := can_attempt_of_halfOpen cb t1 h
  refine ⟨h1, ?_⟩
  rw [h1, can_attempt_of_halfOpen cb t2 h]

/-- Concrete run of `C4_half_open_probe_not_consumed` on a half-open
breaker. -/
theorem C4_half_open_probe_not_consumed_witness :
    can_attempt halfOpenBreaker 2 = (true, halfOpenBreaker) :=
  (C4_half_open_probe_not_consumed halfOpenBreaker 2 3 rfl).1

/-- C6: `follow_redirects` terminates on every finite redirect map — the
fuel `m.length + 2` always suffices, so the loop answers in finitely
many steps — and on the cyclic map A to B to A, following from A stops at
the cycle and answers A (in particular either A or B, never looping). -/
theorem C6_redirect_cycle_termination :
    (∀ (m : List (String × String)) (url : String), (follow_redirects m url).isSome = true) ∧
      (follow_redirects cyclicRedirects "A" = some "A" ∨
        follow_redirects cyclicRedirects "A" = some "B") := by
  refine ⟨follow_redirects_isSome, Or.inl ?_⟩
  decide

/-- C7: the relative-path computation between two output file paths
meets the three reference vectors: sibling directories give "../b/y",
the same directory gives just "y", and a three-level-deep source gives
"../../../y". -/
theorem C7_relative_path_vectors :
    calculate_relative_path "docs/a/x.md" "docs/b/y.md" = "../b/y" ∧
      calculate_relative_path "docs/a/x.md" "docs/a/y.md" = "y" ∧
      calculate_relative_path "docs/a/b/c/x.md" "docs/y.md" = "../../../y" := by
  refine ⟨?_, ?_, ?_⟩ <;> decide

/-- C5: starting from the fresh (closed, zero-failure) breaker, after
exactly `threshold` consecutive `record_failure` calls (at arbitrary
times, the last at `tl`) the state is open with `failure_count =
threshold`; once strictly more than `recovery_timeout` seconds have
elapsed since that last failure, `can_attempt` answers true and enters
half-open; and a subsequent `record_success` returns the breaker to
closed with `failure_count = 0`. -/
theorem C5_circuit_breaker_transitions (thr : Nat) (rt : ℚ) (ts : List ℚ) (tl now : ℚ)
    (hlen : (ts ++ [tl]).length = thr) (helapsed : rt < now - tl) :
    ((ts ++ [tl]).foldl record_failure (CircuitBreaker.init thr rt)).state = CBState.opened ∧
      ((ts ++ [tl]).foldl record_failure (CircuitBreaker.init thr rt)).failure_count = thr ∧
      (can_attempt ((ts ++ [tl]).foldl record_failure (CircuitBreaker.init thr rt)) now).1 =
        true ∧
      (can_attempt ((ts ++ [tl]).foldl record_failure (CircuitBreaker.init thr rt)) now).2.state =
        CBState.halfOpen ∧
      (record_success
        (can_attempt ((ts ++ [tl]).foldl record_failure (CircuitBreaker.init thr rt)) now).2).state =
        CBState.closed ∧
      (record_success
        (can_attempt ((ts ++ [tl]).foldl record_failure
          (CircuitBreaker.init thr rt)) now).2).failure_count = 0 := by
  have hsplit : (ts ++ [tl]).foldl record_failure (CircuitBreaker.init thr rt) =
      record_failure (ts.foldl record_failure (CircuitBreaker.init thr rt)) tl := by
    rw [List.foldl_append]
    rfl
  obtain ⟨hc, hthr, hrt⟩ := foldl_record_failure_fields ts (CircuitBreaker.init thr rt)
  have hlen' : ts.length + 1 = thr := by simpa using hlen
  have hstate : ((ts ++ [tl]).foldl record_failure (CircuitBreaker.init thr rt)).state =
      CBState.opened := by
    rw [hsplit]
    show (if (ts.foldl record_failure (CircuitBreaker.init thr rt)).failure_threshold ≤
        (ts.foldl record_failure (CircuitBreaker.init thr rt)).failure_count + 1 then
      CBState.opened else (ts.foldl record_failure (CircuitBreaker.init thr rt)).state) =
      CBState.opened
    rw [if_pos]
    rw [hthr, hc]
    show thr ≤ 0 + ts.length + 1
    omega
  have hcount : ((ts ++ [tl]).foldl record_failure (CircuitBreaker.init thr rt)).failure_count =
      thr := by
    rw [hsplit]
    show (ts.foldl record_failure (CircuitBreaker.init thr rt)).failure_count + 1 = thr
    rw [hc]
    show 0 + ts.length + 1 = thr
    omega
  have hlast : ((ts ++ [tl]).foldl record_failure (CircuitBreaker.init thr rt)).last_failure_time =
      some tl := by
    rw [hsplit]
    rfl
  have hrt2 : ((ts ++ [tl]).foldl record_failure (CircuitBreaker.init thr rt)).recovery_timeout =
      rt := by
    rw [hsplit]
    show (ts.foldl record_failure (CircuitBreaker.init thr rt)).recovery_timeout = rt
    rw [hrt]
    rfl
  have hca := can_attempt_of_opened_elapsed
    ((ts ++ [tl]).foldl record_failure (CircuitBreaker.init thr rt)) now tl hstate hlast
    (by rw [hrt2]; exact helapsed)
  refine ⟨hstate, hcount, by rw [hca], by rw [hca], ?_, ?_⟩
  · rw [hca]
    rfl
  · rw [hca]
    rfl

/-- Concrete run of `C5_circuit_breaker_transitions`: threshold 1,
recovery timeout 1, one failure at second 0, probed at second 2. -/
theorem C5_circuit_breaker_transitions_witness :
    (can_attempt ((([] : List ℚ) ++ [(0 : ℚ)]).foldl record_failure
      (CircuitBreaker.init 1 1)) 2).1 = true := by
  have h := C5_circuit_breaker_transitions 1 1 [] 0 2 (by simp) (by norm_num)
  exact h.2.2.1

/-- C8: `add_page` is idempotent — adding a URL that is not yet in the
frontier and then adding it again, with any other title, depth, parent
and time arguments, leaves the frontier unchanged by the second call,
with exactly one record for that URL carrying the depth and parent from
the first call. -/
theorem C8_add_page_idempotent (db : List PageRecord) (url : String)
    (t1 t2 : Option String) (d1 d2 : Nat) (p1 p2 : Option String) (n1 n2 : Nat)
    (h : findRecord db url = none) :
    add_page (add_page db url t1 d1 p1 n1) url t2 d2 p2 n2 = add_page db url t1 d1 p1 n1 ∧
      countUrl (add_page db url t1 d1 p1 n1) url = 1 ∧
      (findRecord (add_page db url t1 d1 p1 n1) url).map (fun r => r.crawl_depth) = some d1 ∧
      (findRecord (add_page db url t1 d1 p1 n1) url).map (fun r => r.parent_url) = some p1 := by
  unfold findRecord at h
  have hall : ∀ r ∈ db, ¬ ((r.url == url) = true) := List.find?_eq_none.mp h
  have hany : ¬ (db.any (fun r => r.url == url) = true) := by
    rw [List.any_eq_true]
    rintro ⟨r, hr, hru⟩
    exact hall r hr hru
  have hdb1 : add_page db url t1 d1 p1 n1 = db ++ [newPageRecord url t1 d1 p1 n1] := by
    unfold add_page
    rw [if_neg hany]
  have hurl : ((newPageRecord url t1 d1 p1 n1).url == url) = true := by
    simp [newPageRecord]
  have hany2 : (db ++ [newPageRecord url t1 d1 p1 n1]).any (fun r => r.url == url) = true := by
    rw [List.any_eq_true]
    exact ⟨newPageRecord url t1 d1 p1 n1, by simp, hurl⟩
  have hfind : findRecord (add_page db url t1 d1 p1 n1) url =
      some (newPageRecord url t1 d1 p1 n1) := by
    rw [hdb1]
    unfold findRecord
    rw [List.find?_append, h]
    simp [hurl]
  refine ⟨?_, ?_, ?_, ?_⟩
  · rw [hdb1]
    unfold add_page
    rw [if_pos hany2]
  · rw [hdb1]
    unfold countUrl
    rw [List.filter_append]
    have hnil : db.filter (fun r => r.url == url) = [] := by
      rw [List.filter_eq_nil_iff]
      exact hall
    rw [hnil]
    simp [hurl]
  · rw [hfind]
    rfl
  · rw [hfind]
    rfl

/-- Concrete run of `C8_add_page_idempotent` from the empty frontier. -/
theorem C8_add_page_idempotent_witness :
    countUrl (add_page (add_page ([] : List PageRecord) "u" (some "t") 3 (some "p") 0)
      "u" none 9 none 1) "u" = 1 := by
  have h := C8_add_page_idempotent [] "u" (some "t") none 3 9 (some "p") none 0 1 rfl
  rw [h.1]
  exact h.2.1

/-- C9: with jitter disabled the backoff equals
`min(maxDelay, initialDelay * base^(n-1))` for every attempt `n ≥ 1`
(so it is monotone in `n` while the base is at least 1 and bounded by
`maxDelay` everywhere), and with jitter enabled the same capped delay is
scaled by `0.5 + rand`, a factor lying in `[0.5, 1.5)` for a uniform
draw `rand` in `[0, 1)`. -/
theorem C9_backoff_monotone_capped (config : RetryConfig) (n : Nat) (r r' : ℚ)
    (hn : 1 ≤ n) (hbase : 1 ≤ config.exponential_base) (hinit : 0 ≤ config.initial_delay)
    (hj : config.jitter = false) (hr0 : 0 ≤ r') (hr1 : r' < 1) :
    calculate_backoff n config r =
      min config.max_delay (config.initial_delay * config.exponential_base ^ (n - 1)) ∧
      calculate_backoff n config r ≤ calculate_backoff (n + 1) config r ∧
      calculate_backoff n config r ≤ config.max_delay ∧
      calculate_backoff n { config with jitter := true } r' =
        min (config.initial_delay * config.exponential_base ^ (n - 1)) config.max_delay *
          (1/2 + r') ∧
      (1/2 : ℚ) ≤ 1/2 + r' ∧ (1/2 : ℚ) + r' < 3/2 := by
  have hplain : ∀ k : Nat, calculate_backoff k config r =
      min (config.initial_delay * config.exponential_base ^ (k - 1)) config.max_delay := by
    intro k
    unfold calculate_backoff
    rw [hj]
    rfl
  refine ⟨?_, ?_, ?_, ?_, ?_, ?_⟩
  · rw [hplain, min_comm]
  · rw [hplain, hplain]
    have hle : config.initial_delay * config.exponential_base ^ (n - 1) ≤
        config.initial_delay * config.exponential_base ^ (n + 1 - 1) := by
      apply mul_le_mul_of_nonneg_left _ hinit
      exact pow_le_pow_right₀ hbase (by omega)
    exact min_le_min hle le_rfl
  · rw [hplain]
    exact min_le_right _ _
  · unfold calculate_backoff
    rfl
  · linarith
  · linarith

/-- Concrete run of `C9_backoff_monotone_capped` at the scraper's retry
configuration and attempt 1. -/
theorem C9_backoff_monotone_capped_witness :
    calculate_backoff 1
      { max_attempts := 3, initial_delay := 1, max_delay := 60,
        exponential_base := 2, jitter := false } 0 ≤ 60 := by
  have h := C9_backoff_monotone_capped
    { max_attempts := 3, initial_delay := 1, max_delay := 60,
      exponential_base := 2, jitter := false } 1 0 0
    (by norm_num) (by norm_num) (by norm_num) rfl (by norm_num) (by norm_num)
  exact h.2.2.1

/-- C2: the claim asserts that after `reset_in_progress`,
`get_pending_pages` returns exactly the previously-pending plus
previously-in_progress URLs. On the code, `get_pending_pages` selects
status `pending` OR `failed`, so previously-failed URLs are returned
too: in the mixed frontier `c2db`, the URL "fu" — whose only record was
`failed`, neither pending nor in progress — is in the returned set. -/
theorem C2_counterexample :
    ("fu" ∈ (get_pending_pages (reset_in_progress c2db) none none).map (fun r => r.url)) ∧
      (∀ r ∈ c2db, r.url = "fu" → r.status = PageStatus.failed) := by
  decide

/-- C2 (amended): `reset_in_progress` followed by `get_pending_pages`
returns exactly the URLs that were previously pending, in progress, or
failed; and (with unique URLs, as the primary key guarantees) never a
previously-completed or skipped one. -/
theorem C2_resume_pending_set (db : List PageRecord) :
    (∀ u : String,
        u ∈ (get_pending_pages (reset_in_progress db) none none).map (fun r => r.url) ↔
          ∃ r ∈ db, r.url = u ∧ (r.status = PageStatus.pending ∨
            r.status = PageStatus.inProgress ∨ r.status = PageStatus.failed)) ∧
      ((db.map (fun r => r.url)).Nodup →
        ∀ r ∈ db, r.status = PageStatus.completed →
          r.url ∉ (get_pending_pages (reset_in_progress db) none none).map (fun r => r.url)) := by
  have hmem : ∀ u : String,
      u ∈ (get_pending_pages (reset_in_progress db) none none).map (fun r => r.url) ↔
        ∃ r ∈ db, r.url = u ∧ (r.status = PageStatus.pending ∨
          r.status = PageStatus.inProgress ∨ r.status = PageStatus.failed) := by
    intro u
    show u ∈ (sortByLe pendingOrder ((reset_in_progress db).filter
        (fun r => (r.status == PageStatus.pending || r.status == PageStatus.failed) &&
          true))).map (fun r => r.url) ↔ _
    rw [List.mem_map]
    constructor
    · rintro ⟨r, hr, rfl⟩
      rw [mem_sortByLe, List.mem_filter] at hr
      obtain ⟨hrm, hpred⟩ := hr
      unfold reset_in_progress at hrm
      rw [List.mem_map] at hrm
      obtain ⟨r0, hr0, rfl⟩ := hrm
      by_cases hs : r0.status = PageStatus.inProgress
      · rw [if_pos hs]
        exact ⟨r0, hr0, rfl, Or.inr (Or.inl hs)⟩
      · rw [if_neg hs]
        refine ⟨r0, hr0, rfl, ?_⟩
        rw [if_neg hs] at hpred
        simp only [Bool.and_eq_true, Bool.or_eq_true, beq_iff_eq] at hpred
        rcases hpred.1 with h | h
        · exact Or.inl h
        · exact Or.inr (Or.inr h)
    · rintro ⟨r0, hr0, hurl, hst⟩
      subst hurl
      by_cases hs : r0.status = PageStatus.inProgress
      · refine ⟨{ r0 with status := PageStatus.pending }, ?_, rfl⟩
        rw [mem_sortByLe, List.mem_filter]
        constructor
        · unfold reset_in_progress
          rw [List.mem_map]
          exact ⟨r0, hr0, by rw [if_pos hs]⟩
        · rfl
      · refine ⟨r0, ?_, rfl⟩
        rw [mem_sortByLe, List.mem_filter]
        constructor
        · unfold reset_in_progress
          rw [List.mem_map]
          exact ⟨r0, hr0, by rw [if_neg hs]⟩
        · rcases hst with h | h | h
          · rw [h]
            rfl
          · exact absurd h hs
          · rw [h]
            rfl
  refine ⟨hmem, ?_⟩
  intro hnodup r hr hcomp hmem'
  obtain ⟨r', hr', hurl, hst⟩ := (hmem r.url).mp hmem'
  have heq : r' = r := List.inj_on_of_nodup_map hnodup hr' hr hurl
  subst heq
  rw [hcomp] at hst
  rcases hst with h | h | h <;> simp at h

/-- Concrete run of `C2_resume_pending_set` on the mixed frontier: the
previously-completed URL "cu" is not in the post-reset pending set. -/
theorem C2_resume_pending_set_witness :
    "cu" ∉ (get_pending_pages (reset_in_progress c2db) none none).map (fun r => r.url) :=
  (C2_resume_pending_set c2db).2 (by decide) (sampleRec "cu" PageStatus.completed 0)
    (by decide) rfl

/-- C3: the claim asserts that whenever the consecutive-failure counter
reaches the configured ceiling the whole run is aborted with a fatal
error. On the code the ceiling check lives only in the generic-exception
handler, not in the `TimeoutError` handler: here a timeout brings the
counter from 19 to the ceiling 20, yet the call returns normally —
no fatal error is raised. -/
theorem C3_counterexample :
    (scrape_single_page 20 "u" FetchOutcome.timeout 1 0 c3state).1.failedCount = 20 ∧
      (scrape_single_page 20 "u" FetchOutcome.timeout 1 0 c3state).2 = ScrapeResult.ok := by
  have hneg : ¬ ((can_attempt c3state.cb 0).1 = false) := by
    intro hc
    exact absurd hc (by decide)
  have hstep : scrape_single_page 20 "u" FetchOutcome.timeout 1 0 c3state =
      ({ db := update_page_status
           (update_page_status c3state.db "u" PageStatus.inProgress none none none 1)
           "u" PageStatus.failed none none (some "Timeout while scraping page") 1,
         cb := record_failure (can_attempt c3state.cb 0).2 0,
         failedCount := c3state.failedCount + 1 }, ScrapeResult.ok) := by
    unfold scrape_single_page
    rw [if_neg hneg]
  rw [hstep]
  exact ⟨rfl, rfl⟩

/-- C3 (amended): on every failure of the fetch — timeout or any other
exception — `scrape_single_page` marks the page failed with the failure
message, records the failure in the circuit breaker, and increments the
consecutive-failure counter; but only a non-timeout exception performs
the ceiling check: it raises the fatal run-aborting error exactly when
the incremented counter has reached `max_consecutive_failures`, while a
timeout never raises it, whatever the counter's value. -/
theorem C3_failure_paths (maxC : Nat) (url : String) (now : Nat) (t : ℚ) (msg : String)
    (s : ScrapeState) (hcb : (can_attempt s.cb t).1 = true) :
    ((findRecord (scrape_single_page maxC url FetchOutcome.timeout now t s).1.db url).map
        (fun r => (r.status, r.error_message, r.retry_count)) =
      (findRecord s.db url).map
        (fun r => (PageStatus.failed, some "Timeout while scraping page", r.retry_count + 1))) ∧
      (scrape_single_page maxC url FetchOutcome.timeout now t s).1.cb =
        record_failure (can_attempt s.cb t).2 t ∧
      (scrape_single_page maxC url FetchOutcome.timeout now t s).1.failedCount =
        s.failedCount + 1 ∧
      (scrape_single_page maxC url FetchOutcome.timeout now t s).2 = ScrapeResult.ok ∧
      (msg ≠ "" →
        (findRecord (scrape_single_page maxC url (FetchOutcome.failure msg) now t s).1.db
            url).map (fun r => (r.status, r.error_message, r.retry_count)) =
          (findRecord s.db url).map
            (fun r => (PageStatus.failed, some msg, r.retry_count + 1))) ∧
      (scrape_single_page maxC url (FetchOutcome.failure msg) now t s).1.cb =
        record_failure (can_attempt s.cb t).2 t ∧
      (scrape_single_page maxC url (FetchOutcome.failure msg) now t s).1.failedCount =
        s.failedCount + 1 ∧
      ((scrape_single_page maxC url (FetchOutcome.failure msg) now t s).2 =
          ScrapeResult.fatal "Too many consecutive page failures" ↔
        maxC ≤ s.failedCount + 1) := by
  have hneg : ¬ ((can_attempt s.cb t).1 = false) := by
    rw [hcb]
    intro hc
    cases hc
  have hstepT : scrape_single_page maxC url FetchOutcome.timeout now t s =
      ({ db := update_page_status
           (update_page_status s.db url PageStatus.inProgress none none none now)
           url PageStatus.failed none none (some "Timeout while scraping page") now,
         cb := record_failure (can_attempt s.cb t).2 t,
         failedCount := s.failedCount + 1 }, ScrapeResult.ok) := by
    unfold scrape_single_page
    rw [if_neg hneg]
  have hstepF : scrape_single_page maxC url (FetchOutcome.failure msg) now t s =
      (if maxC ≤ s.failedCount + 1 then
        ({ db := update_page_status
             (update_page_status s.db url PageStatus.inProgress none none none now)
             url PageStatus.failed none none (some msg) now,
           cb := record_failure (can_attempt s.cb t).2 t,
           failedCount := s.failedCount + 1 },
          ScrapeResult.fatal "Too many consecutive page failures")
      else
        ({ db := update_page_status
             (update_page_status s.db url PageStatus.inProgress none none none now)
             url PageStatus.failed none none (some msg) now,
           cb := record_failure (can_attempt s.cb t).2 t,
           failedCount := s.failedCount + 1 }, ScrapeResult.ok)) := by
    unfold scrape_single_page
    rw [if_neg hneg]
  refine ⟨?_, ?_, ?_, ?_, ?_, ?_, ?_, ?_⟩
  · rw [hstepT]
    show (findRecord (update_page_status
        (update_page_status s.db url PageStatus.inProgress none none none now)
        url PageStatus.failed none none (some "Timeout while scraping page") now) url).map
        (fun r => (r.status, r.error_message, r.retry_count)) = _
    rw [findRecord_update_page_status, findRecord_update_page_status]
    cases findRecord s.db url with
    | none => rfl
    | some r => rfl
  · rw [hstepT]
  · rw [hstepT]
  · rw [hstepT]
  · intro hmsg
    rw [hstepF]
    have hif : ∀ c : Prop, ∀ hc : Decidable c,
        ((if c then
          ({ db := update_page_status
               (update_page_status s.db url PageStatus.inProgress none none none now)
               url PageStatus.failed none none (some msg) now,
             cb := record_failure (can_attempt s.cb t).2 t,
             failedCount := s.failedCount + 1 },
            ScrapeResult.fatal "Too many consecutive page failures")
        else
          ({ db := update_page_status
               (update_page_status s.db url PageStatus.inProgress none none none now)
               url PageStatus.failed none none (some msg) now,
             cb := record_failure (can_attempt s.cb t).2 t,
             failedCount := s.failedCount + 1 }, ScrapeResult.ok)) :
          ScrapeState × ScrapeResult).1.db = update_page_status
            (update_page_status s.db url PageStatus.inProgress none none none now)
            url PageStatus.failed none none (some msg) now := by
      intro c hc
      by_cases h : c
      · rw [if_pos h]
      · rw [if_neg h]
    rw [hif _ _]
    rw [findRecord_update_page_status, findRecord_update_page_status]
    cases findRecord s.db url with
    | none => rfl
    | some r =>
      show some (PageStatus.failed,
        (if optTruthy (some msg) = true then some msg else
          (applyStatusUpdate PageStatus.inProgress none none none now r).error_message),
        _) = _
      rw [show optTruthy (some msg) = true from decide_eq_true hmsg]
      rfl
  · rw [hstepF]
    by_cases h : maxC ≤ s.failedCount + 1
    · rw [if_pos h]
    · rw [if_neg h]
  · rw [hstepF]
    by_cases h : maxC ≤ s.failedCount + 1
    · rw [if_pos h]
    · rw [if_neg h]
  · rw [hstepF]
    by_cases h : maxC ≤ s.failedCount + 1
    · rw [if_pos h]
      simp [h]
    · rw [if_neg h]
      simp [h]

/-- Concrete run of `C3_failure_paths`: with the breaker closed, a
timeout marks the page failed and bumps the counter without raising. -/
theorem C3_failure_paths_witness :
    (scrape_single_page 20 "v" FetchOutcome.timeout 1 0 c3okState).1.failedCount =
      c3okState.failedCount + 1 ∧
      (scrape_single_page 20 "v" FetchOutcome.timeout 1 0 c3okState).2 = ScrapeResult.ok := by
  have h := C3_failure_paths 20 "v" 1 0 "boom" c3okState (by decide)
  exact ⟨h.2.2.1, h.2.2.2.1⟩

/-- C10: when the circuit breaker disallows attempts, `scrape_single_page`
marks the URL failed with the message "Circuit breaker open" without any
fetch (the fetch outcome is irrelevant and the consecutive-failure
counter untouched), and since every transition to `failed` increments
`retry_count`, the skip consumes one unit of the page's bounded retry
budget: `get_failed_pages_for_retry` only ever returns pages with
`retry_count` still below the cap. -/
theorem C10_breaker_open_consumes_retry_budget (maxC : Nat) (url : String)
    (outcome : FetchOutcome) (now : Nat) (t : ℚ) (s : ScrapeState)
    (hcb : (can_attempt s.cb t).1 = false) :
    ((findRecord (scrape_single_page maxC url outcome now t s).1.db url).map
        (fun r => (r.status, r.error_message, r.retry_count)) =
      (findRecord s.db url).map
        (fun r => (PageStatus.failed, some "Circuit breaker open", r.retry_count + 1))) ∧
      (scrape_single_page maxC url outcome now t s).1.failedCount = s.failedCount ∧
      (scrape_single_page maxC url outcome now t s).2 = ScrapeResult.ok ∧
      (∀ (db : List PageRecord) (m : Nat) (r : PageRecord),
        r ∈ get_failed_pages_for_retry db m → r.retry_count < m) := by
  have hstep : scrape_single_page maxC url outcome now t s =
      ({ s with
          db := update_page_status s.db url PageStatus.failed none none
            (some "Circuit breaker open") now,
          cb := (can_attempt s.cb t).2 }, ScrapeResult.ok) := by
    unfold scrape_single_page
    rw [if_pos hcb]
  refine ⟨?_, ?_, ?_, ?_⟩
  · rw [hstep]
    show (findRecord (update_page_status s.db url PageStatus.failed none none
        (some "Circuit breaker open") now) url).map
        (fun r => (r.status, r.error_message, r.retry_count)) = _
    rw [findRecord_update_page_status]
    cases findRecord s.db url with
    | none => rfl
    | some r => rfl
  · rw [hstep]
  · rw [hstep]
  · intro db m r hr
    unfold get_failed_pages_for_retry at hr
    rw [mem_sortByLe, List.mem_filter] at hr
    have hp := hr.2
    rw [Bool.and_eq_true] at hp
    exact of_decide_eq_true hp.2

/-- Concrete run of `C10_breaker_open_consumes_retry_budget`: breaker
open within its recovery window, the page ends failed with the breaker
message and its retry count moved from 0 to 1. -/
theorem C10_breaker_open_consumes_retry_budget_witness :
    (findRecord (scrape_single_page 3 "w" FetchOutcome.timeout 1 1 c10state).1.db "w").map
        (fun r => (r.status, r.error_message, r.retry_count)) =
      some (PageStatus.failed, some "Circuit breaker open", 1) := by
  have h := C10_breaker_open_consumes_retry_budget 3 "w" FetchOutcome.timeout 1 1 c10state
    (by rw [can_attempt_of_opened_not_elapsed c10state.cb 1 0 rfl rfl (by norm_num [c10state])])
  rw [h.1]
  decide

end AtlasMarkdown
